import Mathlib

/-!
# Verification of the tenora tenant-connection factory and provisioning engine

Shallow embedding of the core of the `tenora` multi-tenant database toolkit:
the dialect adapter (`factory/shared.ts`), the connection builder, connection
cache and provisioning engine (`factory/build.ts`), and the tenant registry
store (`tenantRegistry.ts`).  TypeScript objects with optional keys are
modelled as Lean structures with `Option` fields (`none` = key absent /
`undefined`), JavaScript string falsiness (`""`/`undefined`) is modelled
explicitly, fallible code returns `Except String`, and the stateful parts
(connection cache, databases, registry rows, files) are explicit state
passing over a `World` structure.  Administrative side effects that the
claims observe (opening/closing connections, issuing DDL, running
migrations, attempting the registry upsert) are additionally recorded in an
event trace.
-/

namespace Tenora

/-! ## Dialect adapter (factory/shared.ts) -/

/-- `resolveClient` from `factory/shared.ts`: the client identifier defaults
to `"pg"` when the configuration leaves it unset. -/
def resolveClient (value : Option String) : String :=
  value.getD "pg"

/-- `isPostgresClient` from `factory/shared.ts`. -/
def isPostgresClient (client : String) : Bool :=
  client == "pg" || client == "postgres" || client == "postgresql"

/-- `isMysqlClient` from `factory/shared.ts`. -/
def isMysqlClient (client : String) : Bool :=
  client == "mysql" || client == "mysql2" || client == "mariadb"

/-- `isSqliteClient` from `factory/shared.ts`. -/
def isSqliteClient (client : String) : Bool :=
  client == "sqlite3" || client == "better-sqlite3" || client == "sqlite"

/-- `isMssqlClient` from `factory/shared.ts`. -/
def isMssqlClient (client : String) : Bool :=
  client == "mssql" || client == "sqlserver"

/-- The dialect families distinguished by the adapter; `other` is every
client identifier outside the alias table. -/
inductive Family where
  | postgres
  | mysql
  | sqlite
  | mssql
  | other
deriving DecidableEq, Repr

/-- Dialect classification: the dispatch order used by `createTenantDb` in
`factory/build.ts` (SQLite first, then Postgres, MySQL, MSSQL, otherwise
the unsupported family). -/
def classify (client : String) : Family :=
  if isSqliteClient client then Family.sqlite
  else if isPostgresClient client then Family.postgres
  else if isMysqlClient client then Family.mysql
  else if isMssqlClient client then Family.mssql
  else Family.other

/-- The full alias table documented for the dialect adapter. -/
def knownAliases : List String :=
  ["pg", "postgres", "postgresql", "mysql", "mysql2", "mariadb",
   "sqlite3", "better-sqlite3", "sqlite", "mssql", "sqlserver"]

/-- The double-quote character used by Postgres identifier quoting. -/
def pgQuoteChar : Char := Char.ofNat 34

/-- The backtick character used by MySQL identifier quoting. -/
def mysqlQuoteChar : Char := Char.ofNat 96

/-- The closing bracket character used by SQL Server identifier quoting. -/
def mssqlQuoteChar : Char := ']'

/-- The single-quote character used by SQL string literals. -/
def sqlStringQuoteChar : Char := Char.ofNat 39

/-- Character-level escaping: each occurrence of the quote character `q` is
doubled, every other character passes through.  This is the character-level
reading of the regex-replace idiom used by the escape helpers in
`factory/shared.ts`. -/
def escChars (q : Char) : List Char → List Char
  | [] => []
  | c :: cs => if c = q then q :: q :: escChars q cs else c :: escChars q cs

/-- Escape an identifier by doubling the quote character `q`. -/
def escapeIdent (q : Char) (value : String) : String :=
  String.mk (escChars q value.data)

/-- `escapePgIdent` from `factory/shared.ts`: double embedded `"`. -/
def escapePgIdent (value : String) : String := escapeIdent pgQuoteChar value

/-- `escapeMysqlIdent` from `factory/shared.ts`: double embedded backticks. -/
def escapeMysqlIdent (value : String) : String := escapeIdent mysqlQuoteChar value

/-- `escapeMssqlIdent` from `factory/shared.ts`: double embedded `]`. -/
def escapeMssqlIdent (value : String) : String := escapeIdent mssqlQuoteChar value

/-- `escapeSqlString` from `factory/shared.ts`: double embedded single
quotes. -/
def escapeSqlString (value : String) : String := escapeIdent sqlStringQuoteChar value

/-- Character-level unescaping, transcribing the spec sentence for the
dialect unescaping direction: each doubled quote character collapses back to
a single one. -/
def unescChars (q : Char) : List Char → List Char
  | [] => []
  | [c] => [c]
  | a :: b :: rest =>
      if a = q ∧ b = q then q :: unescChars q rest
      else a :: unescChars q (b :: rest)

/-- Unescape an identifier by collapsing each doubled quote character. -/
def unescapeIdent (q : Char) (value : String) : String :=
  String.mk (unescChars q value.data)

theorem unescChars_cons_ne (q c : Char) (l : List Char) (hc : c ≠ q) :
    unescChars q (c :: l) = c :: unescChars q l := by
  cases l with
  | nil => rfl
  | cons b rest =>
      simp only [unescChars]
      rw [if_neg]
      intro h
      exact hc h.1

theorem unescChars_escChars (q : Char) (l : List Char) :
    unescChars q (escChars q l) = l := by
  induction l with
  | nil => rfl
  | cons c cs ih =>
      by_cases hc : c = q
      · subst hc
        simp [escChars, unescChars, ih]
      · simp only [escChars, if_neg hc]
        rw [unescChars_cons_ne q c _ hc, ih]

theorem unescapeIdent_escapeIdent (q : Char) (s : String) :
    unescapeIdent q (escapeIdent q s) = s := by
  cases s with
  | mk data =>
      simp only [escapeIdent, unescapeIdent, unescChars_escChars]

/-- `normalizePassword` from `factory/shared.ts`.  Passwords are modelled as
strings, so the JavaScript branch coercing a non-string value with
`String(value)` is the identity here; `null`/`undefined` stays `none`. -/
def normalizePassword (value : Option String) : Option String := value

/-- JavaScript string truthiness on an optional string: `undefined`/`null`
and the empty string are falsy. -/
def optTruthy : Option String → Bool
  | none => false
  | some s => !(s == "")

/-! ## Data model (types.ts) -/

/-- `Knex.PoolConfig` restricted to the fields the factory sets. -/
structure PoolConfig where
  poolMin : Nat
  poolMax : Nat
  acquireTimeoutMillis : Nat
  idleTimeoutMillis : Nat
deriving DecidableEq, Repr

/-- `defaultPool` from `factory/build.ts`. -/
def defaultPool : PoolConfig := ⟨2, 10, 60000, 60000⟩

/-- A Knex static connection descriptor: a JavaScript object with optional
keys; `none` means the key is absent. -/
structure Conn where
  host : Option String := none
  server : Option String := none
  port : Option Nat := none
  user : Option String := none
  password : Option String := none
  database : Option String := none
  filename : Option String := none
  ssl : Option Bool := none
deriving DecidableEq, Repr

/-- `BaseConnectionConfig` from `types.ts` (SSL options and pool settings
are modelled at the granularity the factory inspects them). -/
structure BaseConnectionConfig where
  client : Option String := none
  connection : Option Conn := none
  host : Option String := none
  port : Option Nat := none
  user : Option String := none
  password : Option String := none
  database : Option String := none
  adminDatabase : Option String := none
  ssl : Option Bool := none
  pool : Option PoolConfig := none
  migrationsDir : Option String := none
  seedsDir : Option String := none

/-- `TenantConfig` from `types.ts`.  The first field models the user-name
prefix option for per-tenant database logins (default `user_`); its source
name is abbreviated here. -/
structure TenantConfig where
  userPref : Option String := none
  migrationsDir : Option String := none
  seedsDir : Option String := none
  databaseDir : Option String := none
  databaseSuffix : Option String := none
  databaseName : Option (String → String) := none
  pool : Option PoolConfig := none
  ssl : Option Bool := none

/-- `TenantRegistryOptions` from `types.ts`. -/
structure TenantRegistryOptions where
  table : Option String := none
  idColumn : Option String := none
  passwordColumn : Option String := none
  encryptedPasswordColumn : Option String := none
  createdAtColumn : Option String := none
  updatedAtColumn : Option String := none

/-- `MultiTenantOptions` from `types.ts`.  `knexOptions` is an uninspected
passthrough spread into the Knex config and plays no role in any claimed
behavior, so it is not modelled. -/
structure MultiTenantOptions where
  base : BaseConnectionConfig
  tenant : TenantConfig := {}
  registry : Option TenantRegistryOptions := none
  encryptPassword : Option (String → String) := none
  decryptPassword : Option (String → String) := none

/-! ## Connection builder (factory/build.ts) -/

/-- Error message for a SQLite base configuration missing both
`base.database` and `base.connection.filename`. -/
def sqliteBaseRequiredMsg : String :=
  "Tenora: base.database or base.connection.filename is required for SQLite."

/-- Error message for a missing `base.database`. -/
def baseDatabaseRequiredMsg : String :=
  "Tenora: base.database is required."

/-- Error message for a SQLite target with no database/filename at all. -/
def sqliteDatabaseRequiredMsg : String :=
  "Tenora: base.database is required for SQLite."

/-- Error message for an incomplete networked base configuration. -/
def incompleteBaseMsg : String :=
  "Tenora: base connection is incomplete. Provide base.connection or host/user/database."

/-- `resolveBaseDatabaseName` from `factory/build.ts`: the name (or SQLite
filename) of the base database, from the connection override when present,
else the discrete `base.database` field; missing values are configuration
errors. -/
def resolveBaseDatabaseName (o : MultiTenantOptions) : Except String String :=
  let client := resolveClient o.base.client
  match o.base.connection with
  | some conn =>
      if isSqliteClient client then
        match conn.filename <|> o.base.database with
        | some f => if f == "" then .error sqliteBaseRequiredMsg else .ok f
        | none => .error sqliteBaseRequiredMsg
      else
        match conn.database <|> o.base.database with
        | some d => if d == "" then .error baseDatabaseRequiredMsg else .ok d
        | none => .error baseDatabaseRequiredMsg
  | none =>
      match o.base.database with
      | some d => if d == "" then .error baseDatabaseRequiredMsg else .ok d
      | none => .error baseDatabaseRequiredMsg

/-- `applyConnectionDefaults` from `factory/build.ts`: fill user, port,
host (or `server` for SQL Server), ssl and password from the base-level
fields only where the override left them unset. -/
def applyConnectionDefaults (o : MultiTenantOptions) (conn : Conn) : Conn :=
  let client := resolveClient o.base.client
  let conn := { conn with user := conn.user <|> o.base.user }
  let conn := { conn with port := conn.port <|> o.base.port }
  let conn :=
    if isMssqlClient client then { conn with server := conn.server <|> o.base.host }
    else { conn with host := conn.host <|> o.base.host }
  let conn := { conn with ssl := conn.ssl <|> o.base.ssl }
  { conn with
    password := normalizePassword (conn.password <|> normalizePassword o.base.password) }

/-- `buildBaseConnection` from `factory/build.ts`: produce the connection
descriptor for a given target database (`databaseOverride`), starting from
the caller's connection override when present, else from the discrete
host/port/user/database fields. -/
def buildBaseConnection (o : MultiTenantOptions) (databaseOverride : Option String) :
    Except String Conn :=
  let client := resolveClient o.base.client
  match o.base.connection with
  | some ov =>
      let conn := applyConnectionDefaults o ov
      let conn :=
        match databaseOverride with
        | some d =>
            if isSqliteClient client then { conn with filename := some d, database := none }
            else { conn with database := some d }
        | none =>
            if isSqliteClient client then
              if conn.filename.isNone && optTruthy o.base.database then
                { conn with filename := o.base.database }
              else conn
            else
              if conn.database.isNone && optTruthy o.base.database then
                { conn with database := o.base.database }
              else conn
      .ok conn
  | none =>
      if isSqliteClient client then
        match databaseOverride <|> o.base.database with
        | some f => if f == "" then .error sqliteDatabaseRequiredMsg else .ok { filename := some f }
        | none => .error sqliteDatabaseRequiredMsg
      else
        if !(optTruthy o.base.host && optTruthy o.base.user && optTruthy o.base.database) then
          .error incompleteBaseMsg
        else
          .ok { host := if isMssqlClient client then none else o.base.host
                server := if isMssqlClient client then o.base.host else none
                port := o.base.port
                user := o.base.user
                database := databaseOverride <|> o.base.database
                ssl := some (o.base.ssl.getD false)
                password := normalizePassword o.base.password }

/-- `resolveTenantDatabaseName` from `factory/build.ts`. -/
def resolveTenantDatabaseName (o : MultiTenantOptions) (tenantId : String) : String :=
  match o.tenant.databaseName with
  | some f => f tenantId
  | none => tenantId

/-- Model of Node `path.dirname` for POSIX paths without trailing
separators: everything before the last separator, `"."` when there is none,
`"/"` for entries directly under the root. -/
def pathDirname (p : String) : String :=
  match p.data.reverse.dropWhile (fun c => c != '/') with
  | [] => "."
  | [_] => "/"
  | _ :: tl => String.mk tl.reverse

/-- Model of Node `path.isAbsolute` for POSIX paths. -/
def pathIsAbsolute (p : String) : Bool :=
  match p.data with
  | [] => false
  | c :: _ => c == '/'


/-- Model of Node `path.join` for a directory and an already normalized
relative segment. -/
def pathJoin (dir name : String) : String :=
  if dir.data.getLast? = some '/' then dir ++ name else dir ++ "/" ++ name

/-- `resolveSqliteTenantFilename` from `factory/build.ts`: the SQLite
tenant database file, placed next to the base database file (or in the
configured directory) and named by the resolver or by tenant id plus
suffix. -/
def resolveSqliteTenantFilename (o : MultiTenantOptions) (tenantId : String) :
    Except String String :=
  match resolveBaseDatabaseName o with
  | .error e => .error e
  | .ok baseDb =>
      let baseDir := o.tenant.databaseDir.getD (pathDirname baseDb)
      let name :=
        match o.tenant.databaseName with
        | some f => f tenantId
        | none => tenantId ++ o.tenant.databaseSuffix.getD ".sqlite"
      .ok (if pathIsAbsolute name then name else pathJoin baseDir name)

/-- The Knex config object assembled by the factory, restricted to the
fields it sets (the uninspected `knexOptions` spread is not modelled). -/
structure KnexCfg where
  client : String
  useNullAsDefault : Bool := true
  connection : Conn
  pool : PoolConfig
  migrationsDir : Option String := none
  seedsDir : Option String := none
deriving DecidableEq, Repr

/-- `buildTenantConfig` from `factory/build.ts`: the tenant-scoped Knex
config; a supplied (non-null) password switches the connecting user to the
prefixed per-tenant login on networked dialects. -/
def buildTenantConfig (o : MultiTenantOptions) (tenantId : String) (password : Option String) :
    Except String KnexCfg :=
  let client := resolveClient o.base.client
  let basePassword := normalizePassword o.base.password
  let tenantPassword := normalizePassword (password <|> basePassword)
  let hasTenantPassword := password.isSome
  match
    if isSqliteClient client then resolveSqliteTenantFilename o tenantId
    else .ok (resolveTenantDatabaseName o tenantId) with
  | .error e => .error e
  | .ok tenantDb =>
      match buildBaseConnection o (some tenantDb) with
      | .error e => .error e
      | .ok conn =>
          let conn :=
            if !isSqliteClient client && hasTenantPassword then
              let c := { conn with user := some (o.tenant.userPref.getD "user_" ++ tenantId) }
              match tenantPassword with
              | some p => { c with password := some p }
              | none => { c with password := none }
            else conn
          let conn :=
            match o.tenant.ssl with
            | some s => { conn with ssl := some s }
            | none => conn
          .ok { client := client, connection := conn,
                pool := (o.tenant.pool <|> o.base.pool).getD defaultPool,
                migrationsDir := if optTruthy o.tenant.migrationsDir then o.tenant.migrationsDir else none,
                seedsDir := if optTruthy o.tenant.seedsDir then o.tenant.seedsDir else none }

/-! ## Registry store (tenantRegistry.ts) -/

/-- `Required<TenantRegistryOptions>`: the registry options with every
field resolved. -/
structure ResolvedRegistry where
  table : String
  idColumn : String
  passwordColumn : String
  encryptedPasswordColumn : String
  createdAtColumn : String
  updatedAtColumn : String
deriving DecidableEq, Repr

/-- `DEFAULT_REGISTRY` from `tenantRegistry.ts`. -/
def DEFAULT_REGISTRY : ResolvedRegistry :=
  ⟨"tenora_tenants", "id", "password", "encrypted_password", "created_at", "updated_at"⟩

/-- `resolveRegistry` from `tenantRegistry.ts`: spread the configured
registry options over the defaults. -/
def resolveRegistry (o : MultiTenantOptions) : ResolvedRegistry :=
  match o.registry with
  | none => DEFAULT_REGISTRY
  | some r =>
      { table := r.table.getD DEFAULT_REGISTRY.table
        idColumn := r.idColumn.getD DEFAULT_REGISTRY.idColumn
        passwordColumn := r.passwordColumn.getD DEFAULT_REGISTRY.passwordColumn
        encryptedPasswordColumn :=
          r.encryptedPasswordColumn.getD DEFAULT_REGISTRY.encryptedPasswordColumn
        createdAtColumn := r.createdAtColumn.getD DEFAULT_REGISTRY.createdAtColumn
        updatedAtColumn := r.updatedAtColumn.getD DEFAULT_REGISTRY.updatedAtColumn }

/-- Modelled from the spec: the AES-based default encryption primitive of
`password.ts` (`CryptoJS.AES.encrypt`, an external crypto collaborator with
internal randomness) is represented by an abstract tagged encoding whose
output is never empty; the claims depend only on whether encryption is
applied, never on the ciphertext itself. -/
def defaultEncrypt (key plain : String) : String :=
  "aes:" ++ key ++ ":" ++ plain

/-- `resolveEncrypt` from `tenantRegistry.ts`: the configured hook, else an
environment-key-derived default (`envKey` models `process.env.TENORA_KEY`),
else no encryption. -/
def resolveEncrypt (o : MultiTenantOptions) (envKey : Option String) :
    Option (String → String) :=
  match o.encryptPassword with
  | some f => some f
  | none =>
      match envKey with
      | some k => if k == "" then none else some (fun plain => defaultEncrypt k plain)
      | none => none

/-- One row of the tenant registry table, projected onto the credential
columns (`TenantRecord` in `types.ts`); timestamp columns are
database-defaulted and not modelled. -/
structure RegistryRow where
  id : String
  password : Option String := none
  encryptedPassword : Option String := none
deriving DecidableEq, Repr

/-- The partial record passed to `insert(...).onConflict(id).merge(...)` in
`upsertTenantInRegistry`: only the listed columns are written.  The
configured column names are abstracted into structural fields, since rows
are modelled structurally. -/
structure UpsertRecord where
  idVal : String
  passwordVal : Option String := none
  encryptedVal : Option String := none
deriving DecidableEq, Repr

/-- The record construction of `upsertTenantInRegistry`
(`tenantRegistry.ts`): encrypt when the password and a hook are both
truthy; write the encrypted column when the ciphertext is truthy, else the
plaintext column when the password is truthy, else only the id column. -/
def buildUpsertRecord (o : MultiTenantOptions) (envKey : Option String)
    (tenantId : String) (password : Option String) : UpsertRecord :=
  let encrypt := resolveEncrypt o envKey
  let encrypted : Option String :=
    if optTruthy password then
      match password, encrypt with
      | some p, some f => some (f p)
      | _, _ => none
    else none
  if optTruthy encrypted then { idVal := tenantId, encryptedVal := encrypted }
  else if optTruthy password then { idVal := tenantId, passwordVal := password }
  else { idVal := tenantId }

/-- `onConflict(id).merge(record)`: update only the columns present in the
record on the conflicting row. -/
def mergeRow (r : RegistryRow) (rec : UpsertRecord) : RegistryRow :=
  { id := rec.idVal
    password := if rec.passwordVal.isSome then rec.passwordVal else r.password
    encryptedPassword :=
      if rec.encryptedVal.isSome then rec.encryptedVal else r.encryptedPassword }

/-- The row created by a plain insert of the record (absent columns are
null). -/
def insertRow (rec : UpsertRecord) : RegistryRow :=
  { id := rec.idVal, password := rec.passwordVal, encryptedPassword := rec.encryptedVal }

/-- Insert-or-merge keyed by the id column: merge into every row whose id
matches (exactly one under the primary-key invariant), else append. -/
def applyRecord (rows : List RegistryRow) (rec : UpsertRecord) : List RegistryRow :=
  if rows.any (fun r => r.id == rec.idVal) then
    rows.map (fun r => if r.id == rec.idVal then mergeRow r rec else r)
  else rows ++ [insertRow rec]

/-! ## World state, connection cache and provisioning (factory/build.ts) -/

/-- An open Knex connection handle: its identity plus the config it was
opened with. -/
structure Handle where
  hid : Nat
  config : KnexCfg
deriving DecidableEq, Repr

/-- The mutable state the factory operates on: the server databases and
logins, SQLite files, the registry table of the base database, the
per-manager connection cache with a fresh-handle counter, and the handles
destroyed so far. -/
structure World where
  databases : List String := []
  dbUsers : List String := []
  files : List String := []
  registryExists : Bool := false
  registry : List RegistryRow := []
  cache : List (String × Handle) := []
  nextHandle : Nat := 0
  destroyed : List Nat := []
deriving DecidableEq, Repr

/-- The single-quote character as a string (kept out of string literals). -/
def squote : String := (Char.ofNat 39).toString

/-- The `RegistryMissing` error message of `ensureRegistryTable`. -/
def registryMissingMsg (table : String) : String :=
  "Tenora: tenant registry table \"" ++ table ++ "\" not found. Run " ++ squote
    ++ "tenora migrate" ++ squote ++ " to create it."

/-- `ensureRegistryTable` from `tenantRegistry.ts`: fail when the
configured registry table does not exist; never auto-create it. -/
def ensureRegistryTable (o : MultiTenantOptions) (w : World) : Except String Unit :=
  if w.registryExists then .ok ()
  else .error (registryMissingMsg (resolveRegistry o).table)

/-- `upsertTenantInRegistry` from `tenantRegistry.ts`: require the table,
then insert-or-merge the built record. -/
def upsertTenantInRegistry (o : MultiTenantOptions) (envKey : Option String) (w : World)
    (tenantId : String) (password : Option String) : Except String Unit × World :=
  match ensureRegistryTable o w with
  | .error e => (.error e, w)
  | .ok () =>
      (.ok (),
       { w with registry := applyRecord w.registry (buildUpsertRecord o envKey tenantId password) })

/-- `getTenant` from `factory/build.ts`: return the cached handle when
present (the password argument is not consulted on a hit); otherwise build
the tenant config, open a fresh handle and cache it. -/
def getTenant (o : MultiTenantOptions) (w : World) (tenantId : String)
    (password : Option String) : Except String (Handle × World) :=
  match w.cache.lookup tenantId with
  | some h => .ok (h, w)
  | none =>
      match buildTenantConfig o tenantId password with
      | .error e => .error e
      | .ok cfg =>
          let h : Handle := ⟨w.nextHandle, cfg⟩
          .ok (h, { w with cache := (tenantId, h) :: w.cache, nextHandle := w.nextHandle + 1 })

/-- `destroyTenant` from `factory/build.ts`: destroy and evict the cached
handle when present, otherwise do nothing. -/
def destroyTenant (w : World) (tenantId : String) : World :=
  match w.cache.lookup tenantId with
  | some h =>
      { w with cache := w.cache.eraseP (fun e => e.1 == tenantId)
               destroyed := h.hid :: w.destroyed }
  | none => w

/-- Administrative effects observed during provisioning, in issue order. -/
inductive Ev where
  | adminOpen
  | adminClose
  | existsQuery
  | createDb (name : String)
  | createUser (name : String)
  | grant
  | tenantAdminOpen
  | roleMember
  | tenantAdminClose
  | mkfile (filename : String)
  | tenantOpen
  | migrateLatest
  | seedRun
  | tenantClose
  | cacheEvict (tenantId : String)
  | upsertRegistry (tenantId : String)
deriving DecidableEq, Repr

/-- The `AlreadyExists` error message raised by the Postgres and MySQL
branches of `createTenantDb`. -/
def alreadyExistsMsg (tenantId : String) : String :=
  "Database \"" ++ tenantId ++ "\" already exists"

/-- The unsupported-dialect error message of `createTenantDb`; it embeds
the offending client identifier. -/
def unsupportedMsg (client : String) : String :=
  "Tenora: createTenantDb is only supported for Postgres, MySQL/MariaDB, SQLite, and SQL Server clients (got \""
    ++ client ++ "\")."

/-- The admin/maintenance database `createTenantDb` connects to: the
configured override, else the dialect default, else (for an unknown
dialect) the base database name. -/
def adminDatabaseFor (o : MultiTenantOptions) : Except String String :=
  let client := resolveClient o.base.client
  match o.base.adminDatabase with
  | some d => .ok d
  | none =>
      if isPostgresClient client then .ok "postgres"
      else if isMysqlClient client then .ok "mysql"
      else if isMssqlClient client then .ok "master"
      else resolveBaseDatabaseName o

/-- The body of the `try` block of `createTenantDb` executed against the
admin connection: the dialect-specific existence check, CREATE DATABASE and
login/grant statements. -/
def provisionServerDb (o : MultiTenantOptions) (w : World) (tenantId : String)
    (tenantPassword : Option String) (hasTenantPassword : Bool) :
    Except String Unit × World × List Ev :=
  let client := resolveClient o.base.client
  let pfx := o.tenant.userPref.getD "user_"
  if isPostgresClient client then
    if w.databases.contains tenantId then
      (.error (alreadyExistsMsg tenantId), w, [Ev.existsQuery])
    else
      let w := { w with databases := tenantId :: w.databases }
      if optTruthy tenantPassword && hasTenantPassword then
        let userName := pfx ++ tenantId
        (.ok (), { w with dbUsers := userName :: w.dbUsers },
         [Ev.existsQuery, Ev.createDb tenantId, Ev.createUser userName, Ev.grant])
      else
        (.ok (), w, [Ev.existsQuery, Ev.createDb tenantId])
  else if isMysqlClient client then
    if w.databases.contains tenantId then
      (.error (alreadyExistsMsg tenantId), w, [Ev.existsQuery])
    else
      let w := { w with databases := tenantId :: w.databases }
      if optTruthy tenantPassword && hasTenantPassword then
        let userName := pfx ++ tenantId
        let w :=
          if w.dbUsers.contains userName then w
          else { w with dbUsers := userName :: w.dbUsers }
        (.ok (), w,
         [Ev.existsQuery, Ev.createDb tenantId, Ev.createUser userName, Ev.grant])
      else
        (.ok (), w, [Ev.existsQuery, Ev.createDb tenantId])
  else if isMssqlClient client then
    let w1 :=
      if w.databases.contains tenantId then w
      else { w with databases := tenantId :: w.databases }
    if optTruthy tenantPassword && hasTenantPassword then
      let userName := pfx ++ tenantId
      let w2 :=
        if w1.dbUsers.contains userName then w1
        else { w1 with dbUsers := userName :: w1.dbUsers }
      match buildBaseConnection o (some tenantId) with
      | .error e => (.error e, w2, [Ev.createDb tenantId, Ev.createUser userName])
      | .ok _ =>
          (.ok (), w2,
           [Ev.createDb tenantId, Ev.createUser userName, Ev.tenantAdminOpen,
            Ev.roleMember, Ev.tenantAdminClose])
    else (.ok (), w1, [Ev.createDb tenantId])
  else
    (.error (unsupportedMsg client), w, [])

/-- `createTenantDb` from `factory/build.ts`: ensure the registry table,
create the tenant database (dialect-specific, behind an admin connection
released by a `finally`), optionally a dedicated login, run tenant
migrations/seeds over a temporary tenant connection, evict any stale cache
entry, and finally upsert the registry row.  Returns the outcome, the
final world and the trace of administrative effects. -/
def createTenantDb (o : MultiTenantOptions) (envKey : Option String) (w : World)
    (tenantId : String) (password : Option String) :
    Except String Unit × World × List Ev :=
  match ensureRegistryTable o w with
  | .error e => (.error e, w, [])
  | .ok () =>
      let client := resolveClient o.base.client
      let tenantPassword := normalizePassword password
      let hasTenantPassword := password.isSome
      let step2 : Except String Unit × World × List Ev :=
        if isSqliteClient client then
          match resolveSqliteTenantFilename o tenantId with
          | .error e => (.error e, w, [])
          | .ok filename =>
              if filename == ":memory:" then (.ok (), w, [])
              else if w.files.contains filename then (.ok (), w, [])
              else (.ok (), { w with files := filename :: w.files }, [Ev.mkfile filename])
        else
          match adminDatabaseFor o with
          | .error e => (.error e, w, [])
          | .ok adminDb =>
              match buildBaseConnection o (some adminDb) with
              | .error e => (.error e, w, [])
              | .ok _ =>
                  let (res, w1, evs) :=
                    provisionServerDb o w tenantId tenantPassword hasTenantPassword
                  (res, w1, Ev.adminOpen :: evs ++ [Ev.adminClose])
      match step2 with
      | (.error e, w1, evs) => (.error e, w1, evs)
      | (.ok (), w1, evs) =>
          match buildTenantConfig o tenantId tenantPassword with
          | .error e => (.error e, w1, evs)
          | .ok _ =>
              let evs := evs ++ [Ev.tenantOpen]
                ++ (if optTruthy o.tenant.migrationsDir then [Ev.migrateLatest] else [])
                ++ (if optTruthy o.tenant.seedsDir then [Ev.seedRun] else [])
                ++ [Ev.tenantClose, Ev.cacheEvict tenantId]
              let w2 := { w1 with cache := w1.cache.eraseP (fun e => e.1 == tenantId) }
              let evs := evs ++ [Ev.upsertRegistry tenantId]
              match upsertTenantInRegistry o envKey w2 tenantId password with
              | (.error e, w3) => (.error e, w3, evs)
              | (.ok (), w3) => (.ok (), w3, evs)

/-! ## Dialect adapter lemmas -/

theorem isPostgresClient_iff (c : String) :
    isPostgresClient c = true ↔ c = "pg" ∨ c = "postgres" ∨ c = "postgresql" := by
  simp [isPostgresClient, or_assoc]

theorem isMysqlClient_iff (c : String) :
    isMysqlClient c = true ↔ c = "mysql" ∨ c = "mysql2" ∨ c = "mariadb" := by
  simp [isMysqlClient, or_assoc]

theorem isSqliteClient_iff (c : String) :
    isSqliteClient c = true ↔ c = "sqlite3" ∨ c = "better-sqlite3" ∨ c = "sqlite" := by
  simp [isSqliteClient, or_assoc]

theorem isMssqlClient_iff (c : String) :
    isMssqlClient c = true ↔ c = "mssql" ∨ c = "sqlserver" := by
  simp [isMssqlClient]

theorem sqlite_false_of_pg (c : String) (h : isPostgresClient c = true) :
    isSqliteClient c = false := by
  rw [isPostgresClient_iff] at h
  rcases h with rfl | rfl | rfl <;> decide

theorem sqlite_false_of_mysql (c : String) (h : isMysqlClient c = true) :
    isSqliteClient c = false := by
  rw [isMysqlClient_iff] at h
  rcases h with rfl | rfl | rfl <;> decide

theorem classify_pg (c : String) (h : isPostgresClient c = true) :
    classify c = Family.postgres := by
  unfold classify
  rw [sqlite_false_of_pg c h, h]
  rfl

theorem classify_mysql (c : String) (h : isMysqlClient c = true) :
    classify c = Family.mysql := by
  have hpg : isPostgresClient c = false := by
    rw [isMysqlClient_iff] at h
    rcases h with rfl | rfl | rfl <;> decide
  unfold classify
  rw [sqlite_false_of_mysql c h, hpg, h]
  rfl

theorem classify_mssql (c : String) (h : isMssqlClient c = true) :
    classify c = Family.mssql := by
  have hcases := (isMssqlClient_iff c).mp h
  rcases hcases with rfl | rfl <;> decide

/-- `classify c = other` exactly when every family predicate rejects `c`. -/
theorem classify_eq_other_iff (c : String) :
    classify c = Family.other ↔
      isSqliteClient c = false ∧ isPostgresClient c = false ∧
      isMysqlClient c = false ∧ isMssqlClient c = false := by
  unfold classify
  cases h1 : isSqliteClient c <;> cases h2 : isPostgresClient c <;>
    cases h3 : isMysqlClient c <;> cases h4 : isMssqlClient c <;> simp

theorem mem_knownAliases_of_pred (c : String)
    (h : isSqliteClient c = true ∨ isPostgresClient c = true ∨
         isMysqlClient c = true ∨ isMssqlClient c = true) :
    c ∈ knownAliases := by
  rcases h with h | h | h | h
  · rcases (isSqliteClient_iff c).mp h with rfl | rfl | rfl <;> decide
  · rcases (isPostgresClient_iff c).mp h with rfl | rfl | rfl <;> decide
  · rcases (isMysqlClient_iff c).mp h with rfl | rfl | rfl <;> decide
  · rcases (isMssqlClient_iff c).mp h with rfl | rfl <;> decide

theorem classify_other_of_not_mem (c : String) (h : c ∉ knownAliases) :
    classify c = Family.other := by
  rw [classify_eq_other_iff]
  refine ⟨?_, ?_, ?_, ?_⟩
  · cases hb : isSqliteClient c
    · rfl
    · exact absurd (mem_knownAliases_of_pred c (Or.inl hb)) h
  · cases hb : isPostgresClient c
    · rfl
    · exact absurd (mem_knownAliases_of_pred c (Or.inr (Or.inl hb))) h
  · cases hb : isMysqlClient c
    · rfl
    · exact absurd (mem_knownAliases_of_pred c (Or.inr (Or.inr (Or.inl hb)))) h
  · cases hb : isMssqlClient c
    · rfl
    · exact absurd (mem_knownAliases_of_pred c (Or.inr (Or.inr (Or.inr hb)))) h

theorem classify_sqlite (c : String) (h : isSqliteClient c = true) :
    classify c = Family.sqlite := by
  simp [classify, h]

theorem optTruthy_eq_true (v : Option String) :
    optTruthy v = true ↔ ∃ s, v = some s ∧ s ≠ "" := by
  cases v <;> simp [optTruthy]

/-! ## Claim C8: identifier escaping round-trips -/

/-- C8: for every identifier and each dialect escaping function (quote
doubling for postgres, backtick doubling for mysql, bracket doubling for
mssql, single-quote doubling for string literals), collapsing each doubled
quote character back to one recovers the original identifier. -/
theorem escape_unescape_roundtrip (s : String) :
    unescapeIdent pgQuoteChar (escapePgIdent s) = s
  ∧ unescapeIdent mysqlQuoteChar (escapeMysqlIdent s) = s
  ∧ unescapeIdent mssqlQuoteChar (escapeMssqlIdent s) = s
  ∧ unescapeIdent sqlStringQuoteChar (escapeSqlString s) = s :=
  ⟨unescapeIdent_escapeIdent pgQuoteChar s,
   unescapeIdent_escapeIdent mysqlQuoteChar s,
   unescapeIdent_escapeIdent mssqlQuoteChar s,
   unescapeIdent_escapeIdent sqlStringQuoteChar s⟩

/-! ## Claim C2: total, deterministic dialect classification -/

/-- C2: every alias in the documented alias table classifies to exactly its
family, every string outside the table classifies to `other` without
failing, and for an `other` client the connection builder still succeeds
(given a complete discrete base config) while `createTenantDb` fails with
the unsupported-for-provisioning error, which embeds the offending client
identifier, leaving the world unchanged. -/
theorem dialect_classification (c : String) :
    ((c = "pg" ∨ c = "postgres" ∨ c = "postgresql") → classify c = Family.postgres)
  ∧ ((c = "mysql" ∨ c = "mysql2" ∨ c = "mariadb") → classify c = Family.mysql)
  ∧ ((c = "sqlite3" ∨ c = "better-sqlite3" ∨ c = "sqlite") → classify c = Family.sqlite)
  ∧ ((c = "mssql" ∨ c = "sqlserver") → classify c = Family.mssql)
  ∧ (c ∉ knownAliases → classify c = Family.other)
  ∧ (classify c = Family.other →
      ∀ o : MultiTenantOptions, o.base.client = some c →
        o.base.connection = none → optTruthy o.base.host = true →
        optTruthy o.base.user = true → optTruthy o.base.database = true →
        (∀ dov : Option String, ∃ bc, buildBaseConnection o dov = .ok bc)
        ∧ (∀ (envKey : Option String) (w : World) (tenantId : String)
             (password : Option String) (res : Except String Unit)
             (w' : World) (evs : List Ev),
             w.registryExists = true →
             createTenantDb o envKey w tenantId password = (res, w', evs) →
             res = .error (unsupportedMsg c) ∧ w' = w
             ∧ ∃ pre post, unsupportedMsg c = pre ++ c ++ post)) := by
  refine ⟨?_, ?_, ?_, ?_, ?_, ?_⟩
  · exact fun h => classify_pg c ((isPostgresClient_iff c).mpr h)
  · exact fun h => classify_mysql c ((isMysqlClient_iff c).mpr h)
  · exact fun h => classify_sqlite c ((isSqliteClient_iff c).mpr h)
  · exact fun h => classify_mssql c ((isMssqlClient_iff c).mpr h)
  · exact classify_other_of_not_mem c
  · intro hother o hc hconn hhost huser hdb
    obtain ⟨hsq, hpg, hmy, hms⟩ := (classify_eq_other_iff c).mp hother
    have hrc : resolveClient o.base.client = c := by rw [hc]; rfl
    have hbb : ∀ dov : Option String, ∃ bc, buildBaseConnection o dov = .ok bc := by
      intro dov
      unfold buildBaseConnection
      rw [hrc, hconn]
      simp only [hsq, Bool.false_eq_true, if_false, hhost, huser, hdb,
        Bool.and_self, Bool.not_true]
      exact ⟨_, rfl⟩
    refine ⟨hbb, ?_⟩
    intro envKey w tenantId password res w' evs hreg hrun
    have h1 : ensureRegistryTable o w = .ok () := by
      simp [ensureRegistryTable, hreg]
    have h2 : ∃ adb, adminDatabaseFor o = .ok adb := by
      cases had : o.base.adminDatabase with
      | some d => exact ⟨d, by simp [adminDatabaseFor, had]⟩
      | none =>
          obtain ⟨dbv, hdbv, hne⟩ := (optTruthy_eq_true o.base.database).mp hdb
          refine ⟨dbv, ?_⟩
          unfold adminDatabaseFor
          rw [hrc, had]
          simp only [hpg, hmy, hms, Bool.false_eq_true, if_false]
          unfold resolveBaseDatabaseName
          rw [hrc, hconn]
          simp [hsq, hdbv, hne]
    obtain ⟨adb, hadb⟩ := h2
    obtain ⟨bc, hbc⟩ := hbb (some adb)
    simp only [createTenantDb, h1, hrc, hsq, hadb, hbc, provisionServerDb,
      hpg, hmy, hms, Bool.false_eq_true, if_false, List.nil_append,
      List.cons_append] at hrun
    obtain ⟨hres, hrest⟩ := Prod.mk.inj hrun
    obtain ⟨hw, hevs⟩ := Prod.mk.inj hrest
    exact ⟨hres.symm, hw.symm,
      ⟨"Tenora: createTenantDb is only supported for Postgres, MySQL/MariaDB, SQLite, and SQL Server clients (got \"",
       "\").", rfl⟩⟩

/-- A complete discrete base configuration whose client identifier is
outside the alias table. -/
def otherOpts : MultiTenantOptions :=
  { base := { client := some "oracledb", host := some "h", user := some "u",
              database := some "basedb" } }

theorem dialect_classification_witness :
    classify "pg" = Family.postgres
  ∧ classify "oracledb" = Family.other
  ∧ (∃ bc, buildBaseConnection otherOpts (some "acme") = .ok bc)
  ∧ (createTenantDb otherOpts none { registryExists := true } "acme" none).1
      = .error (unsupportedMsg "oracledb") := by
  have tpg := dialect_classification "pg"
  have t := dialect_classification "oracledb"
  have hother : classify "oracledb" = Family.other :=
    t.2.2.2.2.1 (by decide)
  have hmain := t.2.2.2.2.2 hother otherOpts rfl rfl (by decide) (by decide) (by decide)
  refine ⟨tpg.1 (Or.inl rfl), hother, hmain.1 (some "acme"), ?_⟩
  exact (hmain.2 none { registryExists := true } "acme" none _ _ _ rfl rfl).1

/-! ## Claim C1: Postgres provisioning of an existing tenant database -/

/-- C1: against a Postgres-dialect target, when the tenant database already
exists, `createTenantDb` fails with the already-exists error, the world
(databases, registry rows, cache) is left completely unchanged, the
registry upsert is never attempted, and the admin connection is still
released. -/
theorem createTenantDb_pg_already_exists (o : MultiTenantOptions)
    (envKey : Option String) (w : World) (tenantId : String)
    (password : Option String) (res : Except String Unit) (w' : World)
    (evs : List Ev) (adb : String) (ac : Conn)
    (hreg : w.registryExists = true)
    (hpg : isPostgresClient (resolveClient o.base.client) = true)
    (hex : w.databases.contains tenantId = true)
    (hadb : adminDatabaseFor o = .ok adb)
    (hac : buildBaseConnection o (some adb) = .ok ac)
    (hrun : createTenantDb o envKey w tenantId password = (res, w', evs)) :
    res = .error (alreadyExistsMsg tenantId) ∧ w' = w
  ∧ Ev.upsertRegistry tenantId ∉ evs ∧ Ev.adminClose ∈ evs := by
  have h1 : ensureRegistryTable o w = .ok () := by
    simp [ensureRegistryTable, hreg]
  have hsq : isSqliteClient (resolveClient o.base.client) = false :=
    sqlite_false_of_pg _ hpg
  simp only [createTenantDb, h1, hsq, hadb, hac, provisionServerDb, hpg, hex,
    Bool.false_eq_true, if_false, if_true, List.cons_append, List.nil_append] at hrun
  obtain ⟨hres, hrest⟩ := Prod.mk.inj hrun
  obtain ⟨hw, hevs⟩ := Prod.mk.inj hrest
  subst hevs
  refine ⟨hres.symm, hw.symm, ?_, ?_⟩
  · simp
  · simp

/-- A complete discrete Postgres base configuration. -/
def pgOpts : MultiTenantOptions :=
  { base := { client := some "pg", host := some "h", user := some "u",
              password := some "p", database := some "basedb" } }

/-- A world where the registry table exists, one tenant row is registered
and the tenant database `acme` already exists. -/
def pgWorldAcme : World :=
  { registryExists := true, databases := ["acme"],
    registry := [{ id := "acme", password := some "old" }] }

theorem createTenantDb_pg_already_exists_witness :
    (createTenantDb pgOpts none pgWorldAcme "acme" (some "secret")).1
        = .error (alreadyExistsMsg "acme")
  ∧ (createTenantDb pgOpts none pgWorldAcme "acme" (some "secret")).2.1 = pgWorldAcme
  ∧ Ev.upsertRegistry "acme" ∉ (createTenantDb pgOpts none pgWorldAcme "acme" (some "secret")).2.2
  ∧ Ev.adminClose ∈ (createTenantDb pgOpts none pgWorldAcme "acme" (some "secret")).2.2 :=
  createTenantDb_pg_already_exists pgOpts none pgWorldAcme "acme" (some "secret")
    _ _ _ "postgres" { host := some "h", port := none, user := some "u",
                       password := some "p", database := some "postgres", ssl := some false }
    (by decide) (by decide) (by decide) rfl rfl rfl

/-! ## Connection cache lemmas -/

/-- Number of cache entries stored under a given tenant identifier. -/
def countKey (tenantId : String) (c : List (String × Handle)) : Nat :=
  (c.filter (fun e => e.1 == tenantId)).length

theorem lookup_cons_self (t : String) (h : Handle) (l : List (String × Handle)) :
    ((t, h) :: l).lookup t = some h := by
  simp [List.lookup]

theorem lookup_none_countKey (t : String) (l : List (String × Handle))
    (hl : l.lookup t = none) : countKey t l = 0 := by
  induction l with
  | nil => rfl
  | cons e es ih =>
      obtain ⟨k, b⟩ := e
      by_cases hk : t = k
      · subst hk
        simp [List.lookup] at hl
      · have hk2 : (t == k) = false := beq_eq_false_iff_ne.mpr hk
        have hk3 : (k == t) = false := beq_eq_false_iff_ne.mpr (Ne.symm hk)
        simp only [List.lookup, hk2] at hl
        simp [countKey, List.filter, hk3]
        simpa [countKey] using ih hl

theorem countKey_cons_self (t : String) (h : Handle) (l : List (String × Handle)) :
    countKey t ((t, h) :: l) = countKey t l + 1 := by
  simp [countKey, List.filter]

theorem lookup_some_mem (t : String) (h : Handle) (l : List (String × Handle))
    (hl : l.lookup t = some h) : (t, h) ∈ l := by
  induction l with
  | nil => cases hl
  | cons e es ih =>
      obtain ⟨k, b⟩ := e
      by_cases hk : t = k
      · subst hk
        simp only [List.lookup, beq_self_eq_true] at hl
        cases hl
        exact List.mem_cons_self _ _
      · have hk2 : (t == k) = false := beq_eq_false_iff_ne.mpr hk
        simp only [List.lookup, hk2] at hl
        exact List.mem_cons_of_mem _ (ih hl)

theorem not_mem_keys_lookup_none (t : String) (l : List (String × Handle))
    (hnm : t ∉ l.map Prod.fst) : l.lookup t = none := by
  induction l with
  | nil => rfl
  | cons e es ih =>
      obtain ⟨k, b⟩ := e
      simp only [List.map_cons, List.mem_cons] at hnm
      push_neg at hnm
      have hk2 : (t == k) = false := beq_eq_false_iff_ne.mpr hnm.1
      simp only [List.lookup, hk2]
      exact ih hnm.2

theorem nodup_eraseP_lookup_none (t : String) (l : List (String × Handle))
    (hnd : (l.map Prod.fst).Nodup) :
    (l.eraseP (fun e => e.1 == t)).lookup t = none := by
  induction l with
  | nil => rfl
  | cons e es ih =>
      obtain ⟨k, b⟩ := e
      simp only [List.map_cons, List.nodup_cons] at hnd
      by_cases hk : k = t
      · subst hk
        simp only [List.eraseP_cons, beq_self_eq_true, cond_true]
        exact not_mem_keys_lookup_none k es hnd.1
      · have hk2 : (k == t) = false := beq_eq_false_iff_ne.mpr hk
        have hk3 : (t == k) = false := beq_eq_false_iff_ne.mpr (Ne.symm hk)
        simp only [List.eraseP_cons, hk2, cond_false, List.lookup, hk3]
        exact ih hnd.2

/-! ## Claim C4: getTenant cache idempotence -/

/-- C4: when `getTenant` returns a handle, repeating the call (with any
password) returns the same handle instance and the same state, and the
at-most-one-live-handle-per-tenant cache invariant is preserved. -/
theorem getTenant_cache_idempotent (o : MultiTenantOptions) (w : World)
    (tenantId : String) (pw pw' : Option String) (h : Handle) (w' : World)
    (hget : getTenant o w tenantId pw = .ok (h, w')) :
    getTenant o w' tenantId pw' = .ok (h, w')
  ∧ (countKey tenantId w.cache ≤ 1 → countKey tenantId w'.cache ≤ 1) := by
  unfold getTenant at hget
  cases hlk : w.cache.lookup tenantId with
  | some h0 =>
      rw [hlk] at hget
      simp only [Except.ok.injEq, Prod.mk.injEq] at hget
      obtain ⟨hh, hw⟩ := hget
      subst hh
      subst hw
      constructor
      · unfold getTenant
        rw [hlk]
      · exact id
  | none =>
      rw [hlk] at hget
      cases hbt : buildTenantConfig o tenantId pw with
      | error e => rw [hbt] at hget; cases hget
      | ok cfg =>
          rw [hbt] at hget
          simp only [Except.ok.injEq, Prod.mk.injEq] at hget
          obtain ⟨hh, hw⟩ := hget
          subst hh
          subst hw
          constructor
          · unfold getTenant
            simp only [lookup_cons_self]
          · intro _
            simp only [countKey_cons_self, lookup_none_countKey tenantId w.cache hlk]
            omega

/-- The tenant Knex config `getTenant pgOpts` builds for tenant `acme`
with no password. -/
def witTenantCfg : KnexCfg :=
  { client := "pg",
    connection := { host := some "h", user := some "u", password := some "p",
                    database := some "acme", ssl := some false },
    pool := defaultPool }

/-- The handle opened by the first `getTenant pgOpts` call on an empty
cache. -/
def witHandle : Handle := ⟨0, witTenantCfg⟩

/-- The world after that first call: one cached handle for `acme`. -/
def witWorld : World := { cache := [("acme", witHandle)], nextHandle := 1 }

theorem getTenant_cache_idempotent_witness :
    getTenant pgOpts witWorld "acme" (some "zz") = .ok (witHandle, witWorld)
  ∧ countKey "acme" witWorld.cache ≤ 1 :=
  have t := getTenant_cache_idempotent pgOpts {} "acme" none (some "zz")
    witHandle witWorld rfl
  ⟨t.1, t.2 (by decide)⟩

/-! ## Claim C9: the password argument is ignored on a cache hit -/

/-- C9: when a handle for the tenant is already cached, `getTenant` returns
that cached handle unchanged for every password argument, so the result is
independent of the supplied password until the entry is evicted. -/
theorem getTenant_hit_ignores_password (o : MultiTenantOptions) (w : World)
    (tenantId : String) (h : Handle) (pw pw' : Option String)
    (hlk : w.cache.lookup tenantId = some h) :
    getTenant o w tenantId pw = .ok (h, w)
  ∧ getTenant o w tenantId pw = getTenant o w tenantId pw' := by
  unfold getTenant
  rw [hlk]
  exact ⟨rfl, rfl⟩

theorem getTenant_hit_ignores_password_witness :
    getTenant pgOpts witWorld "acme" (some "changed-password")
        = .ok (witHandle, witWorld)
  ∧ getTenant pgOpts witWorld "acme" (some "changed-password")
        = getTenant pgOpts witWorld "acme" none :=
  getTenant_hit_ignores_password pgOpts witWorld "acme" witHandle
    (some "changed-password") none rfl

/-! ## Claim C5: destroyTenant evicts exactly the cached handle -/

/-- C5: `destroyTenant` destroys and evicts exactly the one cached handle
for the tenant (a no-op when none is cached), and a subsequent `getTenant`
opens a new handle distinct from the destroyed one. -/
theorem destroyTenant_evicts_and_fresh (o : MultiTenantOptions) (w : World)
    (tenantId : String) (pw : Option String) (h : Handle)
    (hnd : (w.cache.map Prod.fst).Nodup)
    (hwf : ∀ e ∈ w.cache, e.2.hid < w.nextHandle)
    (hlk : w.cache.lookup tenantId = some h) :
    destroyTenant w tenantId =
      { w with cache := w.cache.eraseP (fun e => e.1 == tenantId),
               destroyed := h.hid :: w.destroyed }
  ∧ (∀ w0 : World, w0.cache.lookup tenantId = none → destroyTenant w0 tenantId = w0)
  ∧ (∀ (h' : Handle) (w'' : World),
       getTenant o (destroyTenant w tenantId) tenantId pw = .ok (h', w'') → h' ≠ h) := by
  have hdt : destroyTenant w tenantId =
      { w with cache := w.cache.eraseP (fun e => e.1 == tenantId),
               destroyed := h.hid :: w.destroyed } := by
    unfold destroyTenant
    rw [hlk]
  refine ⟨hdt, ?_, ?_⟩
  · intro w0 h0
    unfold destroyTenant
    rw [h0]
  · intro h' w'' hget
    have hbound : h.hid < w.nextHandle := hwf (tenantId, h) (lookup_some_mem _ _ _ hlk)
    have hnone : (w.cache.eraseP (fun e => e.1 == tenantId)).lookup tenantId = none :=
      nodup_eraseP_lookup_none tenantId w.cache hnd
    rw [hdt] at hget
    unfold getTenant at hget
    simp only [hnone] at hget
    cases hbt : buildTenantConfig o tenantId pw with
    | error e => rw [hbt] at hget; cases hget
    | ok cfg =>
        rw [hbt] at hget
        simp only [Except.ok.injEq, Prod.mk.injEq] at hget
        obtain ⟨hh, -⟩ := hget
        subst hh
        intro heq
        have : w.nextHandle = h.hid := congrArg Handle.hid heq
        omega

/-- The handle a `getTenant` call opens right after the eviction. -/
def witHandle2 : Handle := ⟨1, witTenantCfg⟩

/-- The world after evicting `acme` and re-fetching it. -/
def witWorld3 : World :=
  { cache := [("acme", witHandle2)], nextHandle := 2, destroyed := [0] }

theorem destroyTenant_evicts_and_fresh_witness :
    destroyTenant witWorld "acme" =
      { witWorld with cache := witWorld.cache.eraseP (fun e => e.1 == "acme"),
                      destroyed := witHandle.hid :: witWorld.destroyed }
  ∧ witHandle2 ≠ witHandle :=
  have t := destroyTenant_evicts_and_fresh pgOpts witWorld "acme" none witHandle
    (by decide) (by decide) rfl
  ⟨t.1, t.2.2 witHandle2 witWorld3 rfl⟩

/-! ## Registry lemmas -/

/-- Number of registry rows stored under a given tenant id. -/
def countId (tenantId : String) (rows : List RegistryRow) : Nat :=
  (rows.filter (fun r => r.id == tenantId)).length

theorem buildUpsertRecord_idVal (o : MultiTenantOptions) (envKey : Option String)
    (tenantId : String) (password : Option String) :
    (buildUpsertRecord o envKey tenantId password).idVal = tenantId := by
  simp only [buildUpsertRecord]
  repeat first | rfl | split

theorem countId_map_merge (rows : List RegistryRow) (rec : UpsertRecord) :
    countId rec.idVal
        (rows.map (fun r => if r.id == rec.idVal then mergeRow r rec else r))
      = countId rec.idVal rows := by
  induction rows with
  | nil => rfl
  | cons r rs ih =>
      by_cases hb : r.id = rec.idVal
      · have hbeq : (r.id == rec.idVal) = true := beq_iff_eq.mpr hb
        have hmid : ((mergeRow r rec).id == rec.idVal) = true := by simp [mergeRow]
        simp [countId, List.filter, hbeq, hmid] at ih ⊢
        exact ih
      · have hbeq : (r.id == rec.idVal) = false := beq_eq_false_iff_ne.mpr hb
        simp [countId, List.filter, hbeq] at ih ⊢
        exact ih

theorem countId_pos_of_any (tenantId : String) (rows : List RegistryRow)
    (h : rows.any (fun r => r.id == tenantId) = true) :
    1 ≤ countId tenantId rows := by
  obtain ⟨r, hmem, hr⟩ := List.any_eq_true.mp h
  have : r ∈ rows.filter (fun r => r.id == tenantId) := List.mem_filter.mpr ⟨hmem, hr⟩
  have := List.length_pos.mpr (List.ne_nil_of_mem this)
  simpa [countId] using this

theorem countId_zero_of_not_any (tenantId : String) (rows : List RegistryRow)
    (h : rows.any (fun r => r.id == tenantId) = false) :
    countId tenantId rows = 0 := by
  have hall := List.any_eq_false.mp h
  simp only [countId, List.length_eq_zero, List.filter_eq_nil_iff]
  intro a ha
  exact fun hb => hall a ha hb

theorem countId_applyRecord (rows : List RegistryRow) (rec : UpsertRecord)
    (hle : countId rec.idVal rows ≤ 1) :
    countId rec.idVal (applyRecord rows rec) = 1 := by
  unfold applyRecord
  cases hany : rows.any (fun r => r.id == rec.idVal) with
  | true =>
      simp only [if_true]
      rw [countId_map_merge rows rec]
      have := countId_pos_of_any rec.idVal rows hany
      omega
  | false =>
      simp only [Bool.false_eq_true, if_false]
      have h0 := countId_zero_of_not_any rec.idVal rows hany
      have hins : (insertRow rec).id == rec.idVal := by simp [insertRow]
      simp [countId, List.filter_append, List.filter, hins] at h0 ⊢
      simpa [countId] using h0

/-- The effect of a successful `upsertTenantInRegistry` call on the world. -/
theorem upsert_registry_effect (o : MultiTenantOptions) (envKey : Option String)
    (w : World) (tenantId : String) (password : Option String)
    (hreg : w.registryExists = true) :
    upsertTenantInRegistry o envKey w tenantId password =
      (.ok (),
       { w with registry := applyRecord w.registry (buildUpsertRecord o envKey tenantId password) }) := by
  unfold upsertTenantInRegistry ensureRegistryTable
  rw [hreg]
  simp

/-! ## Claim C3 (corrected): credential storage in the registry upsert -/

/-- Options with an encryption hook that returns an empty ciphertext. -/
def emptyHookOpts : MultiTenantOptions :=
  { base := {}, encryptPassword := some (fun _ => "") }

/-- C3 counterexample: with an encryption hook configured whose ciphertext
for the given password is the empty string, `upsert` writes the plaintext
column and not the encrypted one (JavaScript truthiness of the empty
string), refuting the claim as stated. -/
theorem upsert_hook_writes_plaintext_cex :
    emptyHookOpts.encryptPassword.isSome = true
  ∧ buildUpsertRecord emptyHookOpts none "t1" (some "secret") =
      { idVal := "t1", passwordVal := some "secret", encryptedVal := none }
  ∧ (upsertTenantInRegistry emptyHookOpts none { registryExists := true } "t1"
       (some "secret")).2.registry
      = [{ id := "t1", password := some "secret", encryptedPassword := none }] :=
  ⟨rfl, rfl, rfl⟩

/-- C3 (amended): for every tenant id and non-empty plaintext password,
when an encryption hook is configured and returns a non-empty ciphertext
for that password, `upsert` stores only the encrypted column and does not
write the plaintext column; when no hook is configured it stores the
plaintext directly; and two upserts for the same tenant id (any passwords)
leave exactly one registry row for that id. -/
theorem upsert_credentials_storage (o : MultiTenantOptions) (envKey : Option String)
    (tenantId p : String) (hp : p ≠ "") :
    (∀ f, resolveEncrypt o envKey = some f → f p ≠ "" →
       buildUpsertRecord o envKey tenantId (some p) =
         { idVal := tenantId, passwordVal := none, encryptedVal := some (f p) })
  ∧ (resolveEncrypt o envKey = none →
       buildUpsertRecord o envKey tenantId (some p) =
         { idVal := tenantId, passwordVal := some p, encryptedVal := none })
  ∧ (∀ (w : World) (p1 p2 : Option String) (res1 res2 : Except String Unit)
       (w1 w2 : World),
       w.registryExists = true → countId tenantId w.registry ≤ 1 →
       upsertTenantInRegistry o envKey w tenantId p1 = (res1, w1) →
       upsertTenantInRegistry o envKey w1 tenantId p2 = (res2, w2) →
       countId tenantId w2.registry = 1) := by
  have hpb : (p == "") = false := beq_eq_false_iff_ne.mpr hp
  refine ⟨?_, ?_, ?_⟩
  · intro f hf hfp
    have hfpb : (f p == "") = false := beq_eq_false_iff_ne.mpr hfp
    simp [buildUpsertRecord, hf, optTruthy, hpb, hfpb]
  · intro hnone
    simp [buildUpsertRecord, hnone, optTruthy, hpb]
  · intro w p1 p2 res1 res2 w1 w2 hreg hle h1 h2
    rw [upsert_registry_effect o envKey w tenantId p1 hreg] at h1
    obtain ⟨-, hw1⟩ := Prod.mk.inj h1
    have hreg1 : w1.registryExists = true := by rw [← hw1]; exact hreg
    rw [upsert_registry_effect o envKey w1 tenantId p2 hreg1] at h2
    obtain ⟨-, hw2⟩ := Prod.mk.inj h2
    have hid1 := buildUpsertRecord_idVal o envKey tenantId p1
    have hid2 := buildUpsertRecord_idVal o envKey tenantId p2
    have hc1 : countId tenantId w1.registry = 1 := by
      rw [← hw1]
      have := countId_applyRecord w.registry (buildUpsertRecord o envKey tenantId p1)
        (by rw [hid1]; exact hle)
      rwa [hid1] at this
    rw [← hw2]
    have := countId_applyRecord w1.registry (buildUpsertRecord o envKey tenantId p2)
      (by rw [hid2, hc1])
    rwa [hid2] at this

/-- Options with an encryption hook that tags the plaintext. -/
def taggedHookOpts : MultiTenantOptions :=
  { base := {}, encryptPassword := some (fun s => "enc:" ++ s) }

/-- Options with no encryption hook. -/
def plainOpts : MultiTenantOptions := { base := {} }

theorem upsert_credentials_storage_witness :
    buildUpsertRecord taggedHookOpts none "t1" (some "secret") =
      { idVal := "t1", passwordVal := none, encryptedVal := some "enc:secret" }
  ∧ buildUpsertRecord plainOpts none "t1" (some "secret") =
      { idVal := "t1", passwordVal := some "secret", encryptedVal := none }
  ∧ countId "t1"
      ((upsertTenantInRegistry plainOpts none
         ((upsertTenantInRegistry plainOpts none { registryExists := true } "t1"
            (some "a")).2) "t1" (some "b")).2).registry = 1 :=
  have t1 := upsert_credentials_storage taggedHookOpts none "t1" "secret" (by decide)
  have t2 := upsert_credentials_storage plainOpts none "t1" "secret" (by decide)
  ⟨t1.1 (fun s => "enc:" ++ s) rfl (by decide),
   t2.2.1 rfl,
   t2.2.2 { registryExists := true } (some "a") (some "b") _ _ _ _ rfl (by decide) rfl rfl⟩

/-! ## Claim C10: passwordless upsert preserves stored credentials -/

/-- C10: an upsert with no password (or an empty-string password) writes a
record containing only the id column; merging it into an already-registered
tenant leaves the stored password and encrypted-password values unchanged
(the registry is untouched), and a record carrying only an encrypted
credential does not null out a previously stored plaintext one. -/
theorem upsert_no_password_frame (o : MultiTenantOptions) (envKey : Option String)
    (tenantId : String) :
    buildUpsertRecord o envKey tenantId none = { idVal := tenantId }
  ∧ buildUpsertRecord o envKey tenantId (some "") = { idVal := tenantId }
  ∧ (∀ rows, rows.any (fun r => r.id == tenantId) = true →
       applyRecord rows { idVal := tenantId } = rows)
  ∧ (∀ (w : World) (res : Except String Unit) (w' : World) (pw : Option String),
       (pw = none ∨ pw = some "") →
       w.registryExists = true →
       w.registry.any (fun r => r.id == tenantId) = true →
       upsertTenantInRegistry o envKey w tenantId pw = (res, w') →
       res = .ok () ∧ w' = w)
  ∧ (∀ (r : RegistryRow) (e : String), r.id = tenantId →
       mergeRow r { idVal := tenantId, encryptedVal := some e } =
         { r with encryptedPassword := some e }) := by
  have happly : ∀ rows, rows.any (fun r => r.id == tenantId) = true →
      applyRecord rows { idVal := tenantId } = rows := by
    intro rows hany
    unfold applyRecord
    simp only [hany, if_true]
    have hfr : ∀ r ∈ rows,
        (if r.id == ({ idVal := tenantId } : UpsertRecord).idVal
         then mergeRow r { idVal := tenantId } else r) = r := by
      intro r _
      by_cases hb : r.id = tenantId
      · simp [mergeRow, hb.symm]
      · simp [beq_eq_false_iff_ne.mpr hb]
    rw [List.map_congr_left hfr]
    exact List.map_id' rows
  refine ⟨rfl, rfl, happly, ?_, ?_⟩
  · intro w res w' pw hpw hreg hany hrun
    have hrec : buildUpsertRecord o envKey tenantId pw = { idVal := tenantId } := by
      rcases hpw with rfl | rfl <;> rfl
    rw [upsert_registry_effect o envKey w tenantId pw hreg, hrec,
      happly w.registry hany] at hrun
    obtain ⟨hres, hw⟩ := Prod.mk.inj hrun
    exact ⟨hres.symm, hw.symm⟩
  · intro r e hid
    simp [mergeRow, hid.symm]

/-- A registry row with both credential columns populated. -/
def regRowOld : RegistryRow :=
  { id := "t1", password := some "old", encryptedPassword := some "E" }

/-- A world where tenant `t1` is already registered. -/
def wReg : World := { registryExists := true, registry := [regRowOld] }

theorem upsert_no_password_frame_witness :
    buildUpsertRecord plainOpts none "t1" none = { idVal := "t1" }
  ∧ applyRecord wReg.registry { idVal := "t1" } = wReg.registry
  ∧ ((upsertTenantInRegistry plainOpts none wReg "t1" none).1 = .ok ()
      ∧ (upsertTenantInRegistry plainOpts none wReg "t1" none).2 = wReg)
  ∧ mergeRow regRowOld { idVal := "t1", encryptedVal := some "E2" } =
      { regRowOld with encryptedPassword := some "E2" } :=
  have t := upsert_no_password_frame plainOpts none "t1"
  ⟨t.1,
   t.2.2.1 wReg.registry (by decide),
   t.2.2.2.1 wReg _ _ none (Or.inl rfl) rfl (by decide) rfl,
   t.2.2.2.2 regRowOld "E2" rfl⟩

/-! ## Claim C6 (corrected): the connecting user of tenant connections -/

/-- A discrete SQLite base configuration. -/
def sqliteOpts : MultiTenantOptions :=
  { base := { client := some "sqlite3", user := some "admin",
              database := some "/data/base.sqlite" } }

/-- The tenant config built for tenant `acme` under `sqliteOpts`. -/
def sqliteTenantCfg : KnexCfg :=
  { client := "sqlite3",
    connection := { filename := some "/data/acme.sqlite" },
    pool := defaultPool }

/-- C6 counterexample: for a SQLite dialect the builder never substitutes
the prefixed per-tenant user even though a tenant password is supplied —
the resulting descriptor carries no user at all, so the claim fails as
stated over every tenant-specific connection. -/
theorem buildTenantConfig_sqlite_no_user_cex :
    buildTenantConfig sqliteOpts "acme" (some "pw") = .ok sqliteTenantCfg
  ∧ sqliteTenantCfg.connection.user = none
  ∧ (none : Option String) ≠ some ("user_" ++ "acme") :=
  ⟨by rfl, rfl, by decide⟩

/-- C6 (amended): for non-SQLite dialects, when a (non-null) tenant
password is supplied the connecting user of the built tenant descriptor is
the configured user-prefix (default `user_`) concatenated with the tenant
id; when no tenant password is supplied the user is that of the base
connection built for the tenant database (equal to the configured base
user when no connection override is present). -/
theorem buildTenantConfig_user_selection (o : MultiTenantOptions) (tenantId p : String)
    (hns : isSqliteClient (resolveClient o.base.client) = false) :
    (∀ cfg, buildTenantConfig o tenantId (some p) = .ok cfg →
       cfg.connection.user = some (o.tenant.userPref.getD "user_" ++ tenantId))
  ∧ (∀ cfg bc, buildTenantConfig o tenantId none = .ok cfg →
       buildBaseConnection o (some (resolveTenantDatabaseName o tenantId)) = .ok bc →
       cfg.connection.user = bc.user
       ∧ (o.base.connection = none → cfg.connection.user = o.base.user)) := by
  constructor
  · intro cfg hok
    simp only [buildTenantConfig, hns, Bool.false_eq_true, if_false, Bool.not_false,
      Option.isSome_some, Bool.true_and, Bool.and_self, if_true, normalizePassword,
      Option.some_orElse] at hok
    cases hbc : buildBaseConnection o (some (resolveTenantDatabaseName o tenantId)) with
    | error e => rw [hbc] at hok; cases hok
    | ok conn0 =>
        rw [hbc] at hok
        cases hssl : o.tenant.ssl with
        | none =>
            rw [hssl] at hok
            simp only [Except.ok.injEq] at hok
            rw [← hok]
        | some sv =>
            rw [hssl] at hok
            simp only [Except.ok.injEq] at hok
            rw [← hok]
  · intro cfg bc hok hbc
    simp only [buildTenantConfig, hns, Bool.false_eq_true, if_false, Bool.not_false,
      Option.isSome_none, Bool.and_false, if_true] at hok
    rw [hbc] at hok
    have huser : cfg.connection.user = bc.user := by
      cases hssl : o.tenant.ssl with
      | none =>
          rw [hssl] at hok
          simp only [Except.ok.injEq] at hok
          rw [← hok]
      | some sv =>
          rw [hssl] at hok
          simp only [Except.ok.injEq] at hok
          rw [← hok]
    refine ⟨huser, ?_⟩
    intro hconn
    rw [huser]
    unfold buildBaseConnection at hbc
    rw [hconn] at hbc
    simp only [hns, Bool.false_eq_true, if_false] at hbc
    split at hbc
    · cases hbc
    · simp only [Except.ok.injEq] at hbc
      rw [← hbc]

/-- The tenant config built for tenant `acme` with password supplied under
`pgOpts`. -/
def pgTenantCfgS : KnexCfg :=
  { client := "pg",
    connection := { host := some "h", user := some "user_acme", password := some "s",
                    database := some "acme", ssl := some false },
    pool := defaultPool }

/-- The base connection descriptor built by `pgOpts` for database `acme`. -/
def witBaseConn : Conn :=
  { host := some "h", user := some "u", password := some "p",
    database := some "acme", ssl := some false }

theorem buildTenantConfig_user_selection_witness :
    pgTenantCfgS.connection.user = some (pgOpts.tenant.userPref.getD "user_" ++ "acme")
  ∧ witTenantCfg.connection.user = pgOpts.base.user :=
  have t := buildTenantConfig_user_selection pgOpts "acme" "s" (by decide)
  ⟨t.1 pgTenantCfgS rfl,
   (t.2 witTenantCfg witBaseConn rfl rfl).2 rfl⟩

/-! ## Claim C7: SQLite targets become filenames -/

/-- C7: for a SQLite-dialect configuration, targeting a database name
produces a descriptor whose `filename` is that name and that carries no
`database` field — under a connection override the database target is moved
into `filename` and the `database` key is removed — and the resolved tenant
filename ends in the tenant id plus the configured suffix (default
`.sqlite`) when no naming resolver is configured. -/
theorem sqlite_connection_targets (o : MultiTenantOptions) (d tenantId : String)
    (hsq : isSqliteClient (resolveClient o.base.client) = true) :
    (o.base.connection = none → d ≠ "" →
       buildBaseConnection o (some d) = .ok { filename := some d })
  ∧ (∀ ov, o.base.connection = some ov →
       ∃ c, buildBaseConnection o (some d) = .ok c
            ∧ c.filename = some d ∧ c.database = none)
  ∧ (o.tenant.databaseName = none →
       ∀ f, resolveSqliteTenantFilename o tenantId = .ok f →
         ∃ pre, f = pre ++ (tenantId ++ o.tenant.databaseSuffix.getD ".sqlite")) := by
  refine ⟨?_, ?_, ?_⟩
  · intro hconn hd
    unfold buildBaseConnection
    rw [hconn]
    simp [hsq, Option.some_orElse, beq_eq_false_iff_ne.mpr hd]
  · intro ov hconn
    unfold buildBaseConnection
    rw [hconn]
    simp only [hsq, if_true]
    exact ⟨_, rfl, rfl, rfl⟩
  · intro hdbn f hf
    unfold resolveSqliteTenantFilename at hf
    cases hbd : resolveBaseDatabaseName o with
    | error e => rw [hbd] at hf; cases hf
    | ok baseDb =>
        rw [hbd, hdbn] at hf
        simp only [Except.ok.injEq] at hf
        rw [← hf]
        by_cases habs : pathIsAbsolute (tenantId ++ o.tenant.databaseSuffix.getD ".sqlite")
        · rw [if_pos habs]
          exact ⟨"", by simp⟩
        · rw [if_neg habs]
          unfold pathJoin
          split
          · exact ⟨_, rfl⟩
          · exact ⟨_, rfl⟩

/-- A SQLite base configuration with a connection override. -/
def sqliteOvOpts : MultiTenantOptions :=
  { base := { client := some "sqlite3",
              connection := some { database := some "x" },
              database := some "/data/base.sqlite" } }

theorem sqlite_connection_targets_witness :
    buildBaseConnection sqliteOpts (some "foo") = .ok { filename := some "foo" }
  ∧ (∃ c, buildBaseConnection sqliteOvOpts (some "foo") = .ok c
          ∧ c.filename = some "foo" ∧ c.database = none)
  ∧ (∃ pre, "/data/acme.sqlite" =
        pre ++ ("acme" ++ sqliteOpts.tenant.databaseSuffix.getD ".sqlite")) :=
  have t := sqlite_connection_targets sqliteOpts "foo" "acme" (by decide)
  have tov := sqlite_connection_targets sqliteOvOpts "foo" "acme" (by decide)
  ⟨t.1 rfl (by decide),
   tov.2.1 { database := some "x" } rfl,
   t.2.2 rfl "/data/acme.sqlite" (by rfl)⟩

end Tenora
